import Mathlib

/-!
Verification of the midas-rs partitioned columnar ingestion pipeline
(src/product.rs, src/splitter.rs, src/lib.rs).

Rust `&str` values are modelled as `List Char`.  `str::split(" ")` (a
single-character pattern) has the same semantics as `List.splitOn ' '`:
the empty string yields one empty field, adjacent separators yield empty
fields, a trailing separator yields a trailing empty field.

Panics (`unwrap` on `None`, `unreachable!`, out-of-bounds `Vec` indexing)
are modelled as an explicit `panic` outcome, distinct from recoverable
`Err` values returned as Rust `Result::Err`.
-/

abbrev Str := List Char

/-- Recoverable error values (`color_eyre::Report` in the source): the
`try_into` failures of the two normalizers, numeric parse failures inside
`Columns::push` (tagged with the 0-based field index), and the
`DataFrame::new` shape check used by `Product::write`. -/
inductive Err
  | quoteMalformed
  | tradeMalformed
  | numParse (idx : Nat)
  | frameMismatch
  deriving DecidableEq

/-- Outcome of normalizing one raw line into a 15-field row:
`ok`, a recoverable `Err`, or a panic. -/
inductive RowRes
  | ok (fields : List Str)
  | err (e : Err)
  | panic
  deriving DecidableEq

/-- Product::parse_quote (src/product.rs:167-172): split the line on single
spaces and `try_into` a 15-element array; the conversion succeeds exactly
when there are 15 fields. -/
def parse_quote (row : Str) : RowRes :=
  let fields := row.splitOn ' '
  if fields.length = 15 then .ok fields else .err .quoteMalformed

/-- Vec::swap on lists: exchange the entries at indices i and j.  Callers
guard the bounds (Rust's Vec::swap panics out of bounds). -/
def listSwap (l : List Str) (i j : Nat) : List Str :=
  (l.set i (l.getD j [])).set j (l.getD i [])

/-- Product::parse_trade (src/product.rs:174-184): split on single spaces,
push two one-space fields, `swap(6,7)`, `swap(7,8)`, overwrite indices 10
and 11 with "0", then `try_into` a 15-element array.  `Vec::swap` and index
assignment panic when out of bounds; the first out-of-bounds operation
yields `panic`. -/
def parse_trade (row : Str) : RowRes :=
  let v1 := row.splitOn ' ' ++ [[' '], [' ']]
  if v1.length ≤ 7 then .panic
  else
    let v2 := listSwap v1 6 7
    if v2.length ≤ 8 then .panic
    else
      let v3 := listSwap v2 7 8
      if v3.length ≤ 10 then .panic
      else
        let v4 := v3.set 10 ['0']
        if v4.length ≤ 11 then .panic
        else
          let v5 := v4.set 11 ['0']
          if v5.length = 15 then .ok v5 else .err .tradeMalformed

/-- Number of bytes of one character in UTF-8 (Rust `char::len_utf8`). -/
def charBytes (c : Char) : Nat :=
  if c.toNat < 0x80 then 1
  else if c.toNat < 0x800 then 2
  else if c.toNat < 0x10000 then 3
  else 4

/-- Model of `row.get(0..2)` in Product::push (src/product.rs:154): the
first two BYTES of the line as a string slice, or `none` when the line is
shorter than two bytes or byte offset 2 falls inside a multi-byte
character (not a character boundary). -/
def getTag (row : Str) : Option Str :=
  match row with
  | [] => none
  | c :: rest =>
    if charBytes c = 1 then
      match rest with
      | [] => none
      | c2 :: _ => if charBytes c2 = 1 then some [c, c2] else none
    else if charBytes c = 2 then some [c]
    else none

/-- Tag dispatch of Product::push (src/product.rs:154-159): extract the tag
with `row.get(0..2).unwrap()` (panic when `None`), then match it against
"F@" and "FT"; every other tag hits `unreachable!()` (panic). -/
def normalizeLine (row : Str) : RowRes :=
  match getTag row with
  | none => .panic
  | some t =>
    if t = "F@".toList then parse_quote row
    else if t = "FT".toList then parse_trade row
    else .panic

/-- Outcome of get_symbol: a symbol string, or the `unwrap` panic. -/
inductive SymRes
  | ok (s : Str)
  | panic
  deriving DecidableEq

/-- get_symbol (src/splitter.rs:12-19): the 6th space-delimited token
(`split(" ").skip(5).next().unwrap()`) with every underscore removed
(`replace("_", "")`); the `unwrap` panics when the line has fewer than
six space-delimited tokens. -/
def get_symbol (row : Str) : SymRes :=
  match (row.splitOn ' ')[5]? with
  | none => .panic
  | some t => .ok (t.filter (fun c => c ≠ '_'))

/-- ASCII digit test. -/
def isDigitC (c : Char) : Bool := '0' ≤ c && c ≤ '9'

/-- Value of a string of ASCII digits. -/
def digitsVal (s : Str) : Nat := s.foldl (fun a c => a * 10 + (c.toNat - 48)) 0

/-- Rust `u64::from_str` and `u32::from_str` on a bound `2 ^ 64` or `2 ^ 32`:
an optional leading '+', then one or more ASCII digits; a value at or above
the bound is a positive-overflow error.  A leading '-', an empty string, or
any non-digit character is an error. -/
def parseUInt (bound : Nat) (s : Str) : Option Nat :=
  let t := match s with
    | '+' :: r => r
    | _ => s
  if t ≠ [] ∧ t.all isDigitC then
    if digitsVal t < bound then some (digitsVal t) else none
  else none

/-- Strip one optional leading sign character. -/
def stripSignF (s : Str) : Str :=
  match s with
  | '+' :: r => r
  | '-' :: r => r
  | _ => s

/-- Exponent digits of a float literal: optional sign, then one or more
digits. -/
def expDigitsOk (r : Str) : Bool :=
  let t := stripSignF r
  !t.isEmpty && t.all isDigitC

/-- Optional exponent part of a float literal. -/
def expPartOk (r : Str) : Bool :=
  match r with
  | [] => true
  | 'e' :: t => expDigitsOk t
  | 'E' :: t => expDigitsOk t
  | _ => false

/-- Unsigned mantissa-with-exponent part of Rust's float grammar:
`Digit+ | Digit+ '.' Digit* | Digit* '.' Digit+`, then an optional
exponent. -/
def numberOk (s : Str) : Bool :=
  let d1 := s.takeWhile isDigitC
  let r := s.dropWhile isDigitC
  match r with
  | '.' :: r2 =>
      (!d1.isEmpty || !(r2.takeWhile isDigitC).isEmpty)
        && expPartOk (r2.dropWhile isDigitC)
  | _ => !d1.isEmpty && expPartOk r

/-- Acceptance of Rust `f32::from_str` (src/product.rs:76-79 instantiated at
f32): optional sign, then case-insensitive "inf", "infinity" or "nan", or a
number per `numberOk`.  Only grammar acceptance is modelled; the parsed
IEEE-754 value never overflows or errors, and the claims under check never
inspect it, so float columns store the accepted literal itself. -/
def parseF32Ok (s : Str) : Bool :=
  let b := stripSignF s
  let lb := b.map Char.toLower
  lb = "inf".toList || lb = "infinity".toList || lb = "nan".toList || numberOk b

/-- Categorical column buffer (src/product.rs:19-50): a local interning set
(`cached`, a BTreeSet in the source; only membership is observable) plus the
append-only sequence of values (`inner`: the dictionary-encoded series built
by `CategoricalChunkedBuilder` replays exactly the appended values) and a
row counter. -/
structure Categorical where
  cached : List Str
  inner : List Str
  len : Nat
  deriving DecidableEq

/-- Categorical::with_capacity: empty buffer (capacity only preallocates). -/
def Categorical.empty : Categorical := ⟨[], [], 0⟩

/-- Categorical::push (src/product.rs:34-43): intern the entry if absent,
append the interned value, bump the counter; it always succeeds. -/
def Categorical.push (c : Categorical) (entry : Str) : Categorical :=
  { cached := if entry ∈ c.cached then c.cached else entry :: c.cached
    inner := c.inner ++ [entry]
    len := c.len + 1 }

/-- The 15 column buffers of the row accumulator, as laid out by the
`define_columns!` invocation (src/product.rs:112-128): columns c1, c5, c6,
c9, c10, c13, c14, c15 are categorical; c2 is u64; c3, c4, c7, c11 are u32;
c8 and c12 are f32 (stored as their accepted literals, see `parseF32Ok`). -/
structure Columns where
  c1 : Categorical
  c2 : List Nat
  c3 : List Nat
  c4 : List Nat
  c5 : Categorical
  c6 : Categorical
  c7 : List Nat
  c8 : List Str
  c9 : Categorical
  c10 : Categorical
  c11 : List Nat
  c12 : List Str
  c13 : Categorical
  c14 : Categorical
  c15 : Categorical
  len : Nat
  deriving DecidableEq

/-- Columns::with_capacity: all buffers empty. -/
def Columns.empty : Columns :=
  ⟨.empty, [], [], [], .empty, .empty, [], [], .empty, .empty, [], [],
   .empty, .empty, .empty, 0⟩

/-- Columns::push (src/product.rs:103-109 as expanded by `define_columns!`):
push `row[index]` into each buffer in declaration order, returning at the
FIRST failure via `?`; buffers already pushed for this row keep their new
value.  `len` is bumped only when every push succeeded. -/
def Columns.push (c : Columns) (row : List Str) : Columns × Option Err :=
  let c := { c with c1 := c.c1.push (row.getD 0 []) }
  match parseUInt (2 ^ 64) (row.getD 1 []) with
  | none => (c, some (.numParse 1))
  | some v2 =>
  let c := { c with c2 := c.c2 ++ [v2] }
  match parseUInt (2 ^ 32) (row.getD 2 []) with
  | none => (c, some (.numParse 2))
  | some v3 =>
  let c := { c with c3 := c.c3 ++ [v3] }
  match parseUInt (2 ^ 32) (row.getD 3 []) with
  | none => (c, some (.numParse 3))
  | some v4 =>
  let c := { c with c4 := c.c4 ++ [v4] }
  let c := { c with c5 := c.c5.push (row.getD 4 []) }
  let c := { c with c6 := c.c6.push (row.getD 5 []) }
  match parseUInt (2 ^ 32) (row.getD 6 []) with
  | none => (c, some (.numParse 6))
  | some v7 =>
  let c := { c with c7 := c.c7 ++ [v7] }
  if parseF32Ok (row.getD 7 []) then
    let c := { c with c8 := c.c8 ++ [row.getD 7 []] }
    let c := { c with c9 := c.c9.push (row.getD 8 []) }
    let c := { c with c10 := c.c10.push (row.getD 9 []) }
    match parseUInt (2 ^ 32) (row.getD 10 []) with
    | none => (c, some (.numParse 10))
    | some v11 =>
    let c := { c with c11 := c.c11 ++ [v11] }
    if parseF32Ok (row.getD 11 []) then
      let c := { c with c12 := c.c12 ++ [row.getD 11 []] }
      let c := { c with c13 := c.c13.push (row.getD 12 []) }
      let c := { c with c14 := c.c14.push (row.getD 13 []) }
      let c := { c with c15 := c.c15.push (row.getD 14 []) }
      ({ c with len := c.len + 1 }, none)
    else (c, some (.numParse 11))
  else (c, some (.numParse 7))

/-- The 15 buffer lengths in column order. -/
def Columns.heights (c : Columns) : List Nat :=
  [c.c1.inner.length, c.c2.length, c.c3.length, c.c4.length,
   c.c5.inner.length, c.c6.inner.length, c.c7.length, c.c8.length,
   c.c9.inner.length, c.c10.inner.length, c.c11.length, c.c12.length,
   c.c13.inner.length, c.c14.inner.length, c.c15.inner.length]

/-- Outcome of Product::push: `Ok(())`, a recoverable error (`Err`), or a
panic. -/
inductive PushRes
  | ok
  | err (e : Err)
  | panic
  deriving DecidableEq

/-- The Product struct (src/product.rs:131-136) together with the state of
its output file: `written` is the sequence of batches in the file,
`writerOpen` models `writer.is_some()`, and `footer` counts the
`finish()` (footer-writing) calls on the sink. -/
structure Product where
  path : Str
  capacity : Nat
  columns : Columns
  writerOpen : Bool
  written : List Columns
  footer : Nat
  deriving DecidableEq

/-- Product::new (src/product.rs:139-147). -/
def Product.new (path : Str) (capacity : Nat) : Product :=
  { path := path
    capacity := capacity
    columns := Columns.empty
    writerOpen := false
    written := []
    footer := 0 }

/-- DataFrame::new as called by Product::write: succeeds exactly when all
15 series have equal length (polars raises a shape error otherwise).  The
frame carries the same column data as the consumed accumulator (series
names and dictionary encoding do not change the value sequences). -/
def dfNew (c : Columns) : Option Columns :=
  if c.heights.all (fun h => h = c.c1.inner.length) then some c else none

/-- Product::write (src/product.rs:186-207): swap the accumulator for a
fresh one, build the frame (propagating its error), lazily open the sink
on first use — creating the output file with truncate, hence `written`
restarts at that batch — and append the batch. -/
def Product.write (p : Product) : Product × Option Err :=
  let cols := p.columns
  let p2 := { p with columns := Columns.empty }
  match dfNew cols with
  | none => (p2, some Err.frameMismatch)
  | some df =>
    if p2.writerOpen then
      ({ p2 with written := p2.written ++ [df] }, none)
    else
      ({ p2 with writerOpen := true
                 written := [df] }, none)

/-- Product::push (src/product.rs:150-165): flush first when the buffered
row count reached capacity (`?` on the flush error), then extract the tag
and normalize (panicking on a missing tag or an unknown tag), and either
append the row — propagating a numeric parse failure via `?` — or, when
normalization returned a recoverable error, log the row and return Ok. -/
def Product.push (p : Product) (row : Str) : Product × PushRes :=
  let s := if p.capacity ≤ p.columns.len then p.write else (p, none)
  match s with
  | (p1, some e) => (p1, .err e)
  | (p1, none) =>
    match normalizeLine row with
    | .panic => (p1, .panic)
    | .err _ => (p1, .ok)
    | .ok fields =>
      match Columns.push p1.columns fields with
      | (cols, none) => ({ p1 with columns := cols }, .ok)
      | (cols, some e) => ({ p1 with columns := cols }, .err e)

/-- Drop::drop for Product (src/product.rs:210-217): always call write
(its error is discarded), then finish the writer — writing the file
footer — whenever a writer exists. -/
def Product.close (p : Product) : Product :=
  let p1 := (p.write).1
  if p1.writerOpen then { p1 with footer := p1.footer + 1 } else p1

/-- The per-product part of download_impl's loop: push the lines in
arrival order, stopping at the first error or panic exactly as `?` does. -/
def Product.pushAll (p : Product) (rows : List Str) : Product × PushRes :=
  match rows with
  | [] => (p, .ok)
  | row :: rest =>
    match p.push row with
    | (p1, .ok) => p1.pushAll rest
    | (p1, r) => (p1, r)

/-- Value sequences of the 15 columns (the observable content of a batch:
for categorical columns the dictionary-encoded series replays `inner`, for
numeric columns the typed vector). -/
structure Contents where
  d1 : List Str
  d2 : List Nat
  d3 : List Nat
  d4 : List Nat
  d5 : List Str
  d6 : List Str
  d7 : List Nat
  d8 : List Str
  d9 : List Str
  d10 : List Str
  d11 : List Nat
  d12 : List Str
  d13 : List Str
  d14 : List Str
  d15 : List Str
  deriving DecidableEq

/-- Contents of one accumulator. -/
def Columns.contents (c : Columns) : Contents :=
  ⟨c.c1.inner, c.c2, c.c3, c.c4, c.c5.inner, c.c6.inner, c.c7, c.c8,
   c.c9.inner, c.c10.inner, c.c11, c.c12, c.c13.inner, c.c14.inner,
   c.c15.inner⟩

/-- Columnwise concatenation. -/
def Contents.append (a b : Contents) : Contents :=
  ⟨a.d1 ++ b.d1, a.d2 ++ b.d2, a.d3 ++ b.d3, a.d4 ++ b.d4, a.d5 ++ b.d5,
   a.d6 ++ b.d6, a.d7 ++ b.d7, a.d8 ++ b.d8, a.d9 ++ b.d9, a.d10 ++ b.d10,
   a.d11 ++ b.d11, a.d12 ++ b.d12, a.d13 ++ b.d13, a.d14 ++ b.d14,
   a.d15 ++ b.d15⟩

/-- Empty contents. -/
def Contents.empty : Contents :=
  ⟨[], [], [], [], [], [], [], [], [], [], [], [], [], [], []⟩

/-- Concatenated contents of a sequence of written batches: the content of
the output file. -/
def writtenContents : List Columns → Contents
  | [] => Contents.empty
  | c :: rest => (c.contents).append (writtenContents rest)

/-- Columnwise parsed view of a sequence of normalized rows: what those
rows contribute to each of the 15 columns. -/
def rowContents (rs : List (List Str)) : Contents :=
  ⟨rs.map (fun r => r.getD 0 []),
   rs.filterMap (fun r => parseUInt (2 ^ 64) (r.getD 1 [])),
   rs.filterMap (fun r => parseUInt (2 ^ 32) (r.getD 2 [])),
   rs.filterMap (fun r => parseUInt (2 ^ 32) (r.getD 3 [])),
   rs.map (fun r => r.getD 4 []),
   rs.map (fun r => r.getD 5 []),
   rs.filterMap (fun r => parseUInt (2 ^ 32) (r.getD 6 [])),
   rs.filterMap (fun r => if parseF32Ok (r.getD 7 []) then some (r.getD 7 []) else none),
   rs.map (fun r => r.getD 8 []),
   rs.map (fun r => r.getD 9 []),
   rs.filterMap (fun r => parseUInt (2 ^ 32) (r.getD 10 [])),
   rs.filterMap (fun r => if parseF32Ok (r.getD 11 []) then some (r.getD 11 []) else none),
   rs.map (fun r => r.getD 12 []),
   rs.map (fun r => r.getD 13 []),
   rs.map (fun r => r.getD 14 [])⟩

/-- All seven numeric fields of a normalized row parse into their column
types. -/
def fieldsParse (r : List Str) : Bool :=
  (parseUInt (2 ^ 64) (r.getD 1 [])).isSome
    && (parseUInt (2 ^ 32) (r.getD 2 [])).isSome
    && (parseUInt (2 ^ 32) (r.getD 3 [])).isSome
    && (parseUInt (2 ^ 32) (r.getD 6 [])).isSome
    && parseF32Ok (r.getD 7 [])
    && (parseUInt (2 ^ 32) (r.getD 10 [])).isSome
    && parseF32Ok (r.getD 11 [])

/-- A raw line that both normalizes and fully parses. -/
def goodLine (row : Str) : Bool :=
  match normalizeLine row with
  | .ok fields => fieldsParse fields
  | _ => false

/-- The normalized fields of a line (meaningful when normalization
succeeds). -/
def normalized (row : Str) : List Str :=
  match normalizeLine row with
  | .ok fields => fields
  | _ => []

/-- The successfully normalized-and-parsed rows of a line sequence, in
arrival order. -/
def goodRows (rows : List Str) : List (List Str) :=
  rows.filterMap (fun r => if goodLine r then some (normalized r) else none)

/-- DownloadArgs (src/splitter.rs:21-32). -/
structure DLArgs where
  date : Str
  ticker : Str
  capacity : Nat
  skip : List Str
  deriving DecidableEq

/-- DownloadArgs::create_path (src/splitter.rs:46-55):
base_dir/date/ticker/symbol.parquet (directory creation is I/O outside
the model). -/
def mkPath (baseDir : Str) (a : DLArgs) (symbol : Str) : Str :=
  baseDir ++ ('/' :: a.date) ++ ('/' :: a.ticker) ++ ('/' :: symbol)
    ++ ".parquet".toList

/-- HashMap lookup, modelled on an association list keyed by symbol. -/
def lookupP : List (Str × Product) → Str → Option Product
  | [], _ => none
  | (k, v) :: rest, s => if k = s then some v else lookupP rest s

/-- HashMap insert-or-replace. -/
def updateP : List (Str × Product) → Str → Product → List (Str × Product)
  | [], s, v => [(s, v)]
  | (k, w) :: rest, s, v =>
    if k = s then (s, v) :: rest else (k, w) :: updateP rest s v

/-- One iteration of download_impl's loop (src/splitter.rs:62-73): extract
the symbol (panic possible), apply the skip-set filter, get-or-create the
product for the symbol (`entry().or_insert()`), push the line into it
(`?` on its error). -/
def downloadStep (a : DLArgs) (baseDir : Str) (m : List (Str × Product))
    (row : Str) : List (Str × Product) × PushRes :=
  match get_symbol row with
  | .panic => (m, .panic)
  | .ok symbol =>
    if symbol ∈ a.skip then (m, .ok)
    else
      let p := (lookupP m symbol).getD
        (Product.new (mkPath baseDir a symbol) a.capacity)
      let q := p.push row
      (updateP m symbol q.1, q.2)

/-- download_impl's loop over the whole line stream (src/splitter.rs:62-73):
per-line steps in arrival order, aborting at the first error or panic. -/
def downloadGo (a : DLArgs) (baseDir : Str) :
    List (Str × Product) → List Str → List (Str × Product) × PushRes
  | m, [] => (m, .ok)
  | m, row :: rest =>
    match downloadStep a baseDir m row with
    | (m1, .ok) => downloadGo a baseDir m1 rest
    | (m1, r) => (m1, r)

/-- Modelled from rayon's documented contract for
`ThreadPoolBuilder::build_global` (called by par_download,
src/lib.rs:25-28): the process-wide global pool is built at most once;
a second build attempt returns an error and leaves the pool untouched. -/
structure GlobalPool where
  built : Bool
  deriving DecidableEq

/-- Process start: no global pool yet. -/
def GlobalPool.init : GlobalPool := ⟨false⟩

/-- Error of par_download: the global-pool build failure, or a failure of
one of the jobs. -/
inductive ParErr
  | pool
  | job (e : Err)
  deriving DecidableEq

/-- rayon ThreadPoolBuilder::build_global, per its documented contract. -/
def buildGlobal (st : GlobalPool) : GlobalPool × Option ParErr :=
  if st.built then (st, some .pool) else (⟨true⟩, none)

/-- try_for_each over the jobs, failing fast at the first job error.  The
first component records the jobs that were actually started; rayon's
parallel scheduling is abstracted as sequential order, which the claim
under check does not depend on. -/
def runJobs (runJob : DLArgs → Option Err) : List DLArgs → List DLArgs × Option Err
  | [] => ([], none)
  | a :: rest =>
    match runJob a with
    | some e => ([a], some e)
    | none =>
      let r := runJobs runJob rest
      (a :: r.1, r.2)

/-- par_download (src/lib.rs:18-31): install the global pool with the
requested worker budget (`?` on failure — before any job runs), then run
every job.  Job execution (`download` over an external line stream) is
abstracted as the `runJob` argument; the middle component records the jobs
started. -/
def par_download (st : GlobalPool) (args : List DLArgs)
    (runJob : DLArgs → Option Err) : GlobalPool × List DLArgs × Option ParErr :=
  match buildGlobal st with
  | (st1, some e) => (st1, [], some e)
  | (st1, none) =>
    let r := runJobs runJob args
    (st1, r.1, (r.2).map ParErr.job)

/-- Running invariant of a Product: the accumulator is in lock-step (all 15
buffer lengths equal the row counter), and before the writer is first
opened nothing was written. -/
def ProdInv (p : Product) : Prop :=
  p.columns.heights = List.replicate 15 p.columns.len
  ∧ (p.writerOpen = false → p.written = [])

/-- Everything the product holds, file batches then buffered rows. -/
def fileContents (p : Product) : Contents :=
  (writtenContents p.written).append p.columns.contents

/-- C8: for every line with exactly 15 space-separated fields, quote
normalization is the identity split, and it fails with the malformed-record
error exactly when the field count is not 15. -/
theorem parse_quote_identity_split :
    (∀ row : Str, (row.splitOn ' ').length = 15 →
        parse_quote row = RowRes.ok (row.splitOn ' '))
    ∧ (∀ row : Str, (row.splitOn ' ').length ≠ 15 →
        parse_quote row = RowRes.err Err.quoteMalformed) := by
  constructor <;> intro row h <;> simp [parse_quote, h]

/-- Witness for C8 at a concrete 15-field quote line and a concrete
3-field line. -/
theorem parse_quote_identity_split_witness :
    parse_quote "F@ a b c d e f g h i j k l m n".toList
      = RowRes.ok ("F@ a b c d e f g h i j k l m n".toList.splitOn ' ')
    ∧ parse_quote "F@ a b".toList = RowRes.err Err.quoteMalformed :=
  ⟨parse_quote_identity_split.1 _ (by decide),
   parse_quote_identity_split.2 _ (by decide)⟩

/-- C1 (amended): for every trade line with EXACTLY 13 space-separated
fields the result has 15 fields, indices 13 and 14 hold the one-space
placeholder, indices 10 and 11 hold "0", and the values originally at
positions 6, 7, 8 appear at result indices (6, 7, 8) in the order
(orig[7], orig[8], orig[6]); a line with 14 or more fields fails with the
malformed-record error instead of producing a row. -/
theorem parse_trade_exact_13 :
    (∀ (row a0 a1 a2 a3 a4 a5 a6 a7 a8 a9 a10 a11 a12 : Str),
        row.splitOn ' ' = [a0, a1, a2, a3, a4, a5, a6, a7, a8, a9, a10, a11, a12] →
        parse_trade row
          = RowRes.ok [a0, a1, a2, a3, a4, a5, a7, a8, a6, a9,
              ['0'], ['0'], a12, [' '], [' ']])
    ∧ (∀ row : Str, 14 ≤ (row.splitOn ' ').length →
        parse_trade row = RowRes.err Err.tradeMalformed) := by
  constructor
  · intro row a0 a1 a2 a3 a4 a5 a6 a7 a8 a9 a10 a11 a12 h
    unfold parse_trade
    rw [h]
    rfl
  · intro row h
    simp only [parse_trade, listSwap]
    split_ifs with h1 h2 h3 h4 h5 <;>
      first
        | rfl
        | (exfalso
           simp only [List.length_set, List.length_append, List.length_cons,
             List.length_nil] at *
           omega)

/-- Witness for C1 (amended) at a concrete 13-field trade line and a
concrete 14-field trade line. -/
theorem parse_trade_exact_13_witness :
    parse_trade "FT 1 2 3 4 5 A B C 9 10 11 12".toList
      = RowRes.ok ["FT".toList, "1".toList, "2".toList, "3".toList, "4".toList,
          "5".toList, "B".toList, "C".toList, "A".toList, "9".toList,
          ['0'], ['0'], "12".toList, [' '], [' ']]
    ∧ parse_trade "FT 1 2 3 4 5 6 7 8 9 10 11 12 13".toList
      = RowRes.err Err.tradeMalformed :=
  ⟨parse_trade_exact_13.1 "FT 1 2 3 4 5 A B C 9 10 11 12".toList
      "FT".toList "1".toList "2".toList "3".toList "4".toList "5".toList
      "A".toList "B".toList "C".toList "9".toList "10".toList "11".toList
      "12".toList (by decide),
   parse_trade_exact_13.2 _ (by decide)⟩

/-- Counterexample to C1 as stated: on the 13-field trade line below,
orig[6] = "A", orig[7] = "B", orig[8] = "C", and the code places "B" (that
is, orig[7], not the claimed orig[8]) at result index 6: the double swap
realizes the cycle (orig[7], orig[8], orig[6]) at indices (6, 7, 8), the
inverse of the claimed permutation. -/
theorem parse_trade_claim_counterexample :
    parse_trade "FT 1 2 3 4 5 A B C 9 10 11 12".toList
      = RowRes.ok ["FT".toList, "1".toList, "2".toList, "3".toList, "4".toList,
          "5".toList, "B".toList, "C".toList, "A".toList, "9".toList,
          ['0'], ['0'], "12".toList, [' '], [' ']]
    ∧ ("FT 1 2 3 4 5 A B C 9 10 11 12".toList.splitOn ' ').getD 8 [] = "C".toList
    ∧ ("B".toList : Str) ≠ "C".toList := by
  refine ⟨by decide, by decide, by decide⟩

/-- C5 (amended): symbol extraction returns the 6th space-delimited token
with all underscores removed whenever that token exists, and PANICS (the
`unwrap` of `skip(5).next()`) — rather than returning a
SymbolExtractionError value — when the line has fewer than 6 tokens. -/
theorem get_symbol_sixth_token :
    (∀ (row t : Str), (row.splitOn ' ')[5]? = some t →
        get_symbol row = SymRes.ok (t.filter (fun c => c ≠ '_')))
    ∧ (∀ row : Str, (row.splitOn ' ').length < 6 →
        get_symbol row = SymRes.panic) := by
  constructor
  · intro row t h
    simp [get_symbol, h]
  · intro row h
    have hnone : (row.splitOn ' ')[5]? = none := List.getElem?_eq_none (by omega)
    simp [get_symbol, hnone]

/-- Witness for C5 (amended): the spec's fixture line yields
"SPXW220302C04400000", and a 4-token line panics. -/
theorem get_symbol_sixth_token_witness :
    get_symbol "FT 1646224955208 a b c SPXW_220302C04400000 d".toList
      = SymRes.ok ("SPXW_220302C04400000".toList.filter (fun c => c ≠ '_'))
    ∧ get_symbol "FT 1 2 3".toList = SymRes.panic :=
  ⟨get_symbol_sixth_token.1 _ _ (by decide),
   get_symbol_sixth_token.2 _ (by decide)⟩

/-- Counterexample to C5 as stated: on a line with five space-delimited
tokens, get_symbol panics (`unwrap` on `None`); it does not return a
SymbolExtractionError value (its result type carries no error case). -/
theorem get_symbol_claim_counterexample :
    get_symbol "FT 1 2 3 4".toList = SymRes.panic := by decide

/-- Characterization of a fully successful Columns::push: every buffer gains exactly one value and the row counter is bumped. -/
theorem columns_push_ok (c : Columns) (row : List Str) (v2 v3 v4 v7 v11 : Nat)
    (e2 : parseUInt (2 ^ 64) (row.getD 1 []) = some v2)
    (e3 : parseUInt (2 ^ 32) (row.getD 2 []) = some v3)
    (e4 : parseUInt (2 ^ 32) (row.getD 3 []) = some v4)
    (e7 : parseUInt (2 ^ 32) (row.getD 6 []) = some v7)
    (e8 : parseF32Ok (row.getD 7 []) = true)
    (e11 : parseUInt (2 ^ 32) (row.getD 10 []) = some v11)
    (e12 : parseF32Ok (row.getD 11 []) = true)
    :
    Columns.push c row
      = (
         { c1 := c.c1.push (row.getD 0 []), c2 := c.c2 ++ [v2],
           c3 := c.c3 ++ [v3], c4 := c.c4 ++ [v4],
           c5 := c.c5.push (row.getD 4 []), c6 := c.c6.push (row.getD 5 []),
           c7 := c.c7 ++ [v7], c8 := c.c8 ++ [row.getD 7 []],
           c9 := c.c9.push (row.getD 8 []),
           c10 := c.c10.push (row.getD 9 []), c11 := c.c11 ++ [v11],
           c12 := c.c12 ++ [row.getD 11 []],
           c13 := c.c13.push (row.getD 12 []),
           c14 := c.c14.push (row.getD 13 []),
           c15 := c.c15.push (row.getD 14 []), len := c.len + 1 }
        , none) := by
  simp only [List.getD_eq_getElem?_getD, Nat.reducePow] at e2 e3 e4 e7 e8 e11 e12
  simp [Columns.push, e2, e3, e4, e7, e8, e11, e12]

/-- Columns::push stopped by a parse failure at field index 1: the 1 buffers before it keep their new value, the rest gain none, and the counter is not bumped. -/
theorem columns_push_fail_1 (c : Columns) (row : List Str)
    (e2 : parseUInt (2 ^ 64) (row.getD 1 []) = none)
    :
    Columns.push c row
      = (
         { c1 := c.c1.push (row.getD 0 []), c2 := c.c2, c3 := c.c3,
           c4 := c.c4, c5 := c.c5, c6 := c.c6, c7 := c.c7, c8 := c.c8,
           c9 := c.c9, c10 := c.c10, c11 := c.c11, c12 := c.c12,
           c13 := c.c13, c14 := c.c14, c15 := c.c15, len := c.len }
        , some (Err.numParse 1)) := by
  simp only [List.getD_eq_getElem?_getD, Nat.reducePow] at e2
  simp [Columns.push, e2]

/-- Columns::push stopped by a parse failure at field index 2: the 2 buffers before it keep their new value, the rest gain none, and the counter is not bumped. -/
theorem columns_push_fail_2 (c : Columns) (row : List Str) (v2 : Nat)
    (e2 : parseUInt (2 ^ 64) (row.getD 1 []) = some v2)
    (e3 : parseUInt (2 ^ 32) (row.getD 2 []) = none)
    :
    Columns.push c row
      = (
         { c1 := c.c1.push (row.getD 0 []), c2 := c.c2 ++ [v2], c3 := c.c3,
           c4 := c.c4, c5 := c.c5, c6 := c.c6, c7 := c.c7, c8 := c.c8,
           c9 := c.c9, c10 := c.c10, c11 := c.c11, c12 := c.c12,
           c13 := c.c13, c14 := c.c14, c15 := c.c15, len := c.len }
        , some (Err.numParse 2)) := by
  simp only [List.getD_eq_getElem?_getD, Nat.reducePow] at e2 e3
  simp [Columns.push, e2, e3]

/-- Columns::push stopped by a parse failure at field index 3: the 3 buffers before it keep their new value, the rest gain none, and the counter is not bumped. -/
theorem columns_push_fail_3 (c : Columns) (row : List Str) (v2 v3 : Nat)
    (e2 : parseUInt (2 ^ 64) (row.getD 1 []) = some v2)
    (e3 : parseUInt (2 ^ 32) (row.getD 2 []) = some v3)
    (e4 : parseUInt (2 ^ 32) (row.getD 3 []) = none)
    :
    Columns.push c row
      = (
         { c1 := c.c1.push (row.getD 0 []), c2 := c.c2 ++ [v2],
           c3 := c.c3 ++ [v3], c4 := c.c4, c5 := c.c5, c6 := c.c6,
           c7 := c.c7, c8 := c.c8, c9 := c.c9, c10 := c.c10, c11 := c.c11,
           c12 := c.c12, c13 := c.c13, c14 := c.c14, c15 := c.c15,
           len := c.len }
        , some (Err.numParse 3)) := by
  simp only [List.getD_eq_getElem?_getD, Nat.reducePow] at e2 e3 e4
  simp [Columns.push, e2, e3, e4]

/-- Columns::push stopped by a parse failure at field index 6: the 6 buffers before it keep their new value, the rest gain none, and the counter is not bumped. -/
theorem columns_push_fail_6 (c : Columns) (row : List Str) (v2 v3 v4 : Nat)
    (e2 : parseUInt (2 ^ 64) (row.getD 1 []) = some v2)
    (e3 : parseUInt (2 ^ 32) (row.getD 2 []) = some v3)
    (e4 : parseUInt (2 ^ 32) (row.getD 3 []) = some v4)
    (e7 : parseUInt (2 ^ 32) (row.getD 6 []) = none)
    :
    Columns.push c row
      = (
         { c1 := c.c1.push (row.getD 0 []), c2 := c.c2 ++ [v2],
           c3 := c.c3 ++ [v3], c4 := c.c4 ++ [v4],
           c5 := c.c5.push (row.getD 4 []), c6 := c.c6.push (row.getD 5 []),
           c7 := c.c7, c8 := c.c8, c9 := c.c9, c10 := c.c10, c11 := c.c11,
           c12 := c.c12, c13 := c.c13, c14 := c.c14, c15 := c.c15,
           len := c.len }
        , some (Err.numParse 6)) := by
  simp only [List.getD_eq_getElem?_getD, Nat.reducePow] at e2 e3 e4 e7
  simp [Columns.push, e2, e3, e4, e7]

/-- Columns::push stopped by a parse failure at field index 7: the 7 buffers before it keep their new value, the rest gain none, and the counter is not bumped. -/
theorem columns_push_fail_7 (c : Columns) (row : List Str) (v2 v3 v4 v7 : Nat)
    (e2 : parseUInt (2 ^ 64) (row.getD 1 []) = some v2)
    (e3 : parseUInt (2 ^ 32) (row.getD 2 []) = some v3)
    (e4 : parseUInt (2 ^ 32) (row.getD 3 []) = some v4)
    (e7 : parseUInt (2 ^ 32) (row.getD 6 []) = some v7)
    (e8 : parseF32Ok (row.getD 7 []) = false)
    :
    Columns.push c row
      = (
         { c1 := c.c1.push (row.getD 0 []), c2 := c.c2 ++ [v2],
           c3 := c.c3 ++ [v3], c4 := c.c4 ++ [v4],
           c5 := c.c5.push (row.getD 4 []), c6 := c.c6.push (row.getD 5 []),
           c7 := c.c7 ++ [v7], c8 := c.c8, c9 := c.c9, c10 := c.c10,
           c11 := c.c11, c12 := c.c12, c13 := c.c13, c14 := c.c14,
           c15 := c.c15, len := c.len }
        , some (Err.numParse 7)) := by
  simp only [List.getD_eq_getElem?_getD, Nat.reducePow] at e2 e3 e4 e7 e8
  simp [Columns.push, e2, e3, e4, e7, e8]

/-- Columns::push stopped by a parse failure at field index 10: the 10 buffers before it keep their new value, the rest gain none, and the counter is not bumped. -/
theorem columns_push_fail_10 (c : Columns) (row : List Str) (v2 v3 v4 v7 : Nat)
    (e2 : parseUInt (2 ^ 64) (row.getD 1 []) = some v2)
    (e3 : parseUInt (2 ^ 32) (row.getD 2 []) = some v3)
    (e4 : parseUInt (2 ^ 32) (row.getD 3 []) = some v4)
    (e7 : parseUInt (2 ^ 32) (row.getD 6 []) = some v7)
    (e8 : parseF32Ok (row.getD 7 []) = true)
    (e11 : parseUInt (2 ^ 32) (row.getD 10 []) = none)
    :
    Columns.push c row
      = (
         { c1 := c.c1.push (row.getD 0 []), c2 := c.c2 ++ [v2],
           c3 := c.c3 ++ [v3], c4 := c.c4 ++ [v4],
           c5 := c.c5.push (row.getD 4 []), c6 := c.c6.push (row.getD 5 []),
           c7 := c.c7 ++ [v7], c8 := c.c8 ++ [row.getD 7 []],
           c9 := c.c9.push (row.getD 8 []),
           c10 := c.c10.push (row.getD 9 []), c11 := c.c11, c12 := c.c12,
           c13 := c.c13, c14 := c.c14, c15 := c.c15, len := c.len }
        , some (Err.numParse 10)) := by
  simp only [List.getD_eq_getElem?_getD, Nat.reducePow] at e2 e3 e4 e7 e8 e11
  simp [Columns.push, e2, e3, e4, e7, e8, e11]

/-- Columns::push stopped by a parse failure at field index 11: the 11 buffers before it keep their new value, the rest gain none, and the counter is not bumped. -/
theorem columns_push_fail_11 (c : Columns) (row : List Str) (v2 v3 v4 v7 v11 : Nat)
    (e2 : parseUInt (2 ^ 64) (row.getD 1 []) = some v2)
    (e3 : parseUInt (2 ^ 32) (row.getD 2 []) = some v3)
    (e4 : parseUInt (2 ^ 32) (row.getD 3 []) = some v4)
    (e7 : parseUInt (2 ^ 32) (row.getD 6 []) = some v7)
    (e8 : parseF32Ok (row.getD 7 []) = true)
    (e11 : parseUInt (2 ^ 32) (row.getD 10 []) = some v11)
    (e12 : parseF32Ok (row.getD 11 []) = false)
    :
    Columns.push c row
      = (
         { c1 := c.c1.push (row.getD 0 []), c2 := c.c2 ++ [v2],
           c3 := c.c3 ++ [v3], c4 := c.c4 ++ [v4],
           c5 := c.c5.push (row.getD 4 []), c6 := c.c6.push (row.getD 5 []),
           c7 := c.c7 ++ [v7], c8 := c.c8 ++ [row.getD 7 []],
           c9 := c.c9.push (row.getD 8 []),
           c10 := c.c10.push (row.getD 9 []), c11 := c.c11 ++ [v11],
           c12 := c.c12, c13 := c.c13, c14 := c.c14, c15 := c.c15,
           len := c.len }
        , some (Err.numParse 11)) := by
  simp only [List.getD_eq_getElem?_getD, Nat.reducePow] at e2 e3 e4 e7 e8 e11 e12
  simp [Columns.push, e2, e3, e4, e7, e8, e11, e12]

/-- C2 (amended): on a successful push every one of the 15 column buffers
gains exactly one value (so equal buffer lengths are preserved); on a
FAILED push the buffers strictly before the failing column each keep one
new value and the rest gain none — the accumulator is left with a strict
prefix of the row appended, NOT rolled back, so the buffer lengths are no
longer equal. -/
theorem columns_push_lockstep :
    (∀ (c : Columns) (row : List Str), (Columns.push c row).2 = none →
        (Columns.push c row).1.heights = c.heights.map (· + 1))
    ∧ (∀ (c : Columns) (row : List Str), (Columns.push c row).2 ≠ none →
        ∃ k, k < 15 ∧ (Columns.push c row).1.heights
          = (c.heights.take k).map (· + 1) ++ c.heights.drop k) := by
  constructor
  · intro c row h
    rcases e2 : parseUInt (2 ^ 64) (row.getD 1 []) with _ | v2
    · rw [columns_push_fail_1 c row e2] at h; simp at h
    rcases e3 : parseUInt (2 ^ 32) (row.getD 2 []) with _ | v3
    · rw [columns_push_fail_2 c row v2 e2 e3] at h; simp at h
    rcases e4 : parseUInt (2 ^ 32) (row.getD 3 []) with _ | v4
    · rw [columns_push_fail_3 c row v2 v3 e2 e3 e4] at h; simp at h
    rcases e7 : parseUInt (2 ^ 32) (row.getD 6 []) with _ | v7
    · rw [columns_push_fail_6 c row v2 v3 v4 e2 e3 e4 e7] at h; simp at h
    rcases e8 : parseF32Ok (row.getD 7 []) with _ | _
    · rw [columns_push_fail_7 c row v2 v3 v4 v7 e2 e3 e4 e7 e8] at h; simp at h
    rcases e11 : parseUInt (2 ^ 32) (row.getD 10 []) with _ | v11
    · rw [columns_push_fail_10 c row v2 v3 v4 v7 e2 e3 e4 e7 e8 e11] at h
      simp at h
    rcases e12 : parseF32Ok (row.getD 11 []) with _ | _
    · rw [columns_push_fail_11 c row v2 v3 v4 v7 v11 e2 e3 e4 e7 e8 e11 e12] at h
      simp at h
    rw [columns_push_ok c row v2 v3 v4 v7 v11 e2 e3 e4 e7 e8 e11 e12]
    simp [Columns.heights, Categorical.push]
  · intro c row h
    rcases e2 : parseUInt (2 ^ 64) (row.getD 1 []) with _ | v2
    · rw [columns_push_fail_1 c row e2]
      exact ⟨1, by norm_num, by simp [Columns.heights, Categorical.push]⟩
    rcases e3 : parseUInt (2 ^ 32) (row.getD 2 []) with _ | v3
    · rw [columns_push_fail_2 c row v2 e2 e3]
      exact ⟨2, by norm_num, by simp [Columns.heights, Categorical.push]⟩
    rcases e4 : parseUInt (2 ^ 32) (row.getD 3 []) with _ | v4
    · rw [columns_push_fail_3 c row v2 v3 e2 e3 e4]
      exact ⟨3, by norm_num, by simp [Columns.heights, Categorical.push]⟩
    rcases e7 : parseUInt (2 ^ 32) (row.getD 6 []) with _ | v7
    · rw [columns_push_fail_6 c row v2 v3 v4 e2 e3 e4 e7]
      exact ⟨6, by norm_num, by simp [Columns.heights, Categorical.push]⟩
    rcases e8 : parseF32Ok (row.getD 7 []) with _ | _
    · rw [columns_push_fail_7 c row v2 v3 v4 v7 e2 e3 e4 e7 e8]
      exact ⟨7, by norm_num, by simp [Columns.heights, Categorical.push]⟩
    rcases e11 : parseUInt (2 ^ 32) (row.getD 10 []) with _ | v11
    · rw [columns_push_fail_10 c row v2 v3 v4 v7 e2 e3 e4 e7 e8 e11]
      exact ⟨10, by norm_num, by simp [Columns.heights, Categorical.push]⟩
    rcases e12 : parseF32Ok (row.getD 11 []) with _ | _
    · rw [columns_push_fail_11 c row v2 v3 v4 v7 v11 e2 e3 e4 e7 e8 e11 e12]
      exact ⟨11, by norm_num, by simp [Columns.heights, Categorical.push]⟩
    rw [columns_push_ok c row v2 v3 v4 v7 v11 e2 e3 e4 e7 e8 e11 e12] at h
    simp at h

/-- Witness for C2 (amended): a fully parseable row bumps all 15 buffers of
the empty accumulator, and a row whose u64 field is "X" leaves a strict
prefix appended. -/
theorem columns_push_lockstep_witness :
    (Columns.push Columns.empty
        (["a", "1", "2", "3", "b", "c", "4", "5.5", "d", "e", "6", "7.5",
          "f", "g", "h"].map String.toList)).1.heights
      = Columns.empty.heights.map (· + 1)
    ∧ ∃ k, k < 15
        ∧ (Columns.push Columns.empty
            (["a", "X", "2", "3", "b", "c", "4", "5.5", "d", "e", "6", "7.5",
              "f", "g", "h"].map String.toList)).1.heights
          = (Columns.empty.heights.take k).map (· + 1)
            ++ Columns.empty.heights.drop k :=
  ⟨columns_push_lockstep.1 _ _ (by decide),
   columns_push_lockstep.2 _ _ (by decide)⟩

/-- Counterexample to C2 as stated: pushing a 15-field row whose second
field "X" fails u64 parsing leaves the first buffer one element longer
than the second — the failed push retains a new value in column 1, the
buffers are no longer in lock-step. -/
theorem columns_push_rollback_counterexample :
    (Columns.push Columns.empty
        (["a", "X", "2", "3", "b", "c", "4", "5.5", "d", "e", "6", "7.5",
          "f", "g", "h"].map String.toList)).2 ≠ none
    ∧ (Columns.push Columns.empty
        (["a", "X", "2", "3", "b", "c", "4", "5.5", "d", "e", "6", "7.5",
          "f", "g", "h"].map String.toList)).1.c1.inner.length = 1
    ∧ (Columns.push Columns.empty
        (["a", "X", "2", "3", "b", "c", "4", "5.5", "d", "e", "6", "7.5",
          "f", "g", "h"].map String.toList)).1.c2.length = 0 := by
  refine ⟨by decide, by decide, by decide⟩

/-- C3 (amended): a row that fails tag-based normalization is recoverable
per row — it is logged and dropped, push returns Ok, and the router
continues with the next line; but a NUMERIC field that fails to parse
inside the accumulator is NOT recoverable: push propagates that error,
aborting the router run. -/
theorem product_push_row_failure :
    (∀ (p : Product) (row : Str) (e : Err), p.columns.len < p.capacity →
        normalizeLine row = RowRes.err e →
        Product.push p row = (p, PushRes.ok))
    ∧ (∀ (p : Product) (row : Str) (fields : List Str) (e : Err),
        p.columns.len < p.capacity → normalizeLine row = RowRes.ok fields →
        (Columns.push p.columns fields).2 = some e →
        (Product.push p row).2 = PushRes.err e)
    ∧ (∀ (a : DLArgs) (baseDir : Str) (m m2 : List (Str × Product))
          (row : Str) (rest : List Str),
        downloadStep a baseDir m row = (m2, PushRes.ok) →
        downloadGo a baseDir m (row :: rest) = downloadGo a baseDir m2 rest) := by
  refine ⟨?_, ?_, ?_⟩
  · intro p row e hcap hn
    have hlt : ¬ p.capacity ≤ p.columns.len := by omega
    simp [Product.push, hlt, hn]
  · intro p row fields e hcap hn hc
    have hlt : ¬ p.capacity ≤ p.columns.len := by omega
    rcases hp : Columns.push p.columns fields with ⟨cols, r⟩
    rw [hp] at hc
    simp only at hc
    subst hc
    simp [Product.push, hlt, hn, hp]
  · intro a baseDir m m2 row rest h
    simp [downloadGo, h]

/-- Witness for C3 (amended): a 3-field quote line is dropped with Ok; a
15-field quote line whose u64 field is "X" makes push return that numeric
error; after an Ok step the router proceeds to the rest of the stream. -/
theorem product_push_row_failure_witness :
    Product.push (Product.new [] 10) "F@ 1 2".toList
      = (Product.new [] 10, PushRes.ok)
    ∧ (Product.push (Product.new [] 10)
        "F@ X 2 3 b c 4 5.5 d e 6 7.5 f g h".toList).2
      = PushRes.err (Err.numParse 1)
    ∧ downloadGo ⟨"d".toList, "t".toList, 10, []⟩ "base".toList []
        ["F@ 1 2 3 b c 4 5.5 d e 6 7.5 f g h".toList]
      = downloadGo ⟨"d".toList, "t".toList, 10, []⟩ "base".toList
          (downloadStep ⟨"d".toList, "t".toList, 10, []⟩ "base".toList []
            "F@ 1 2 3 b c 4 5.5 d e 6 7.5 f g h".toList).1 [] :=
  ⟨product_push_row_failure.1 _ _ Err.quoteMalformed (by decide) (by decide),
   product_push_row_failure.2.1 _ _
     ("F@ X 2 3 b c 4 5.5 d e 6 7.5 f g h".toList.splitOn ' ')
     (Err.numParse 1) (by decide) (by decide) (by decide),
   product_push_row_failure.2.2 _ _ _ _ _ _ (by decide)⟩

/-- Counterexample to C3 as stated: a line whose numeric field fails to
parse does NOT yield a successful push — the error propagates out of
Product::push (and hence aborts download_impl through `?`). -/
theorem product_push_numeric_counterexample :
    (Product.push (Product.new [] 10)
        "F@ Y 2 3 b c 4 5.5 d e 6 7.5 f g h".toList).2
      = PushRes.err (Err.numParse 1)
    ∧ (Product.push (Product.new [] 10)
        "F@ Y 2 3 b c 4 5.5 d e 6 7.5 f g h".toList).2 ≠ PushRes.ok := by
  refine ⟨by decide, by decide⟩

/-- C4 (amended): for a line whose 2-byte tag is neither "F@" nor "FT",
Product::push PANICS (the `unreachable!()` arm); it does not return an
UnsupportedRecordType-style error value. -/
theorem product_push_unknown_tag_panics :
    ∀ (p : Product) (row t : Str), p.columns.len < p.capacity →
      getTag row = some t → t ≠ "F@".toList → t ≠ "FT".toList →
      (Product.push p row).2 = PushRes.panic := by
  intro p row t hcap htag hq ht
  have hlt : ¬ p.capacity ≤ p.columns.len := by omega
  have hq2 : t ≠ ['F', '@'] := fun hh => hq (hh.trans (by decide))
  have ht2 : t ≠ ['F', 'T'] := fun hh => ht (hh.trans (by decide))
  have hn : normalizeLine row = RowRes.panic := by
    simp [normalizeLine, htag, hq2, ht2]
  simp [Product.push, hlt, hn]

/-- Witness for C4 (amended) at the concrete tag "XX". -/
theorem product_push_unknown_tag_panics_witness :
    (Product.push (Product.new [] 10) "XX 1 2".toList).2 = PushRes.panic :=
  product_push_unknown_tag_panics _ _ "XX".toList (by decide) (by decide)
    (by decide) (by decide)

/-- Counterexample to C4 as stated: pushing a line with the unknown tag
"ZZ" panics; the push result is the panic outcome, not a recoverable error
value (and the code's error type has no UnsupportedRecordType case at
all). -/
theorem product_push_unsupported_counterexample :
    (Product.push (Product.new [] 10) "ZZ 1 2".toList).2 = PushRes.panic := by
  decide

/-- C9: pushing a line shorter than 2 bytes — or whose first two bytes do
not end at a character boundary — panics (the `unwrap` of `row.get(0..2)`
returns None there); for every line of at least 2 ASCII characters the tag
extraction is total and yields the first two characters. -/
theorem product_push_tag_extraction :
    (∀ (p : Product) (row : Str), p.columns.len < p.capacity →
        getTag row = none → (Product.push p row).2 = PushRes.panic)
    ∧ (∀ row : Str, (row.map charBytes).sum < 2 → getTag row = none)
    ∧ (∀ row : Str, (∀ c ∈ row, c.toNat < 128) → 2 ≤ row.length →
        getTag row = some (row.take 2)) := by
  refine ⟨?_, ?_, ?_⟩
  · intro p row hcap htag
    have hlt : ¬ p.capacity ≤ p.columns.len := by omega
    have hn : normalizeLine row = RowRes.panic := by
      simp [normalizeLine, htag]
    simp [Product.push, hlt, hn]
  · intro row h
    cases row with
    | nil => rfl
    | cons c rest =>
      have h1 : 1 ≤ charBytes c := by
        unfold charBytes; split_ifs <;> norm_num
      have hrest : rest = [] := by
        cases rest with
        | nil => rfl
        | cons c2 r2 =>
          have h2 : 1 ≤ charBytes c2 := by
            unfold charBytes; split_ifs <;> norm_num
          simp only [List.map_cons, List.sum_cons] at h
          omega
      subst hrest
      have hc : charBytes c = 1 ∨ 2 ≤ charBytes c := by omega
      rcases hc with hc | hc
      · simp [getTag, hc]
      · simp only [List.map_cons, List.map_nil, List.sum_cons,
          List.sum_nil] at h
        omega
  · intro row hascii hlen
    cases row with
    | nil => simp at hlen
    | cons c rest =>
      cases rest with
      | nil => simp at hlen
      | cons c2 r2 =>
        have hc : charBytes c = 1 := by
          have := hascii c (by simp)
          simp [charBytes, this]
        have hc2 : charBytes c2 = 1 := by
          have := hascii c2 (by simp)
          simp [charBytes, this]
        simp [getTag, hc, hc2]

/-- Witness for C9: the empty line and the one-character line make push
panic; a 2-byte boundary violation (first character é is 2 bytes, line
"é" has its first 2 bytes equal to the whole character, so compare with a
3-byte character) also yields no tag; the ASCII line "FT x" has the total
tag extraction. -/
theorem product_push_tag_extraction_witness :
    (Product.push (Product.new [] 10) ([] : Str)).2 = PushRes.panic
    ∧ getTag "F".toList = none
    ∧ getTag "FT x".toList = some "FT".toList :=
  ⟨product_push_tag_extraction.1 _ _ (by decide) (by decide),
   product_push_tag_extraction.2.1 _ (by decide),
   product_push_tag_extraction.2.2 _ (by decide) (by decide)⟩

/-- A frame builds whenever the accumulator is in lock-step. -/
theorem dfNew_of_heights (c : Columns)
    (h : c.heights = List.replicate 15 c.len) : dfNew c = some c := by
  have h0 : c.c1.inner.length = c.len := by
    have := congrArg (fun l => l.getD 0 0) h
    simpa [Columns.heights] using this
  have hall : c.heights.all (fun x => x = c.c1.inner.length) = true := by
    rw [h, h0]
    simp [List.all_eq_true, List.mem_replicate]
  simp [dfNew, hall]

/-- Characterization of a successful Product::write: the buffered batch
moves into the file (restarting the file content at first open, which
truncates), the accumulator restarts empty, the writer is open. -/
theorem product_write_ok (p : Product) (h : dfNew p.columns = some p.columns) :
    Product.write p
      = ({ p with columns := Columns.empty
                  writerOpen := true
                  written := (if p.writerOpen then p.written else []) ++ [p.columns] },
         none) := by
  cases hw : p.writerOpen <;> simp [Product.write, h, hw]

/-- Characterization of Product::close (the Drop impl) on an in-lock-step
accumulator: one unconditional batch write and one footer write. -/
theorem product_close_char (p : Product)
    (c_eq : p.columns.heights = List.replicate 15 p.columns.len) :
    Product.close p
      = { p with columns := Columns.empty
                 writerOpen := true
                 written := (if p.writerOpen then p.written else []) ++ [p.columns]
                 footer := p.footer + 1 } := by
  have hdf := dfNew_of_heights p.columns c_eq
  simp [Product.close, product_write_ok p hdf]

/-- C7 (amended): close (the Drop impl, which the Rust drop glue runs at
most once per Product) flushes the buffered rows and writes the footer —
but the flush is UNCONDITIONAL, writing an (empty) batch even when zero
rows are buffered; applied a second time as a state transformer it would
write a further empty batch and a second footer, so it is not an
idempotent no-op on an empty buffer. -/
theorem product_close_unconditional_flush :
    (∀ p : Product, p.columns.heights = List.replicate 15 p.columns.len →
        (p.close).written = (if p.writerOpen then p.written else []) ++ [p.columns]
        ∧ (p.close).footer = p.footer + 1
        ∧ (p.close).columns = Columns.empty)
    ∧ (∀ p : Product, p.columns.heights = List.replicate 15 p.columns.len →
        ((p.close).close).written
          = (if p.writerOpen then p.written else []) ++ [p.columns] ++ [Columns.empty]
        ∧ ((p.close).close).footer = p.footer + 2) := by
  constructor
  · intro p h
    rw [product_close_char p h]
    refine ⟨rfl, rfl, rfl⟩
  · intro p h
    have h1 := product_close_char p h
    have h2 : ((p.close).close)
        = { p.close with
              columns := Columns.empty
              writerOpen := true
              written := (if (p.close).writerOpen then (p.close).written else [])
                ++ [(p.close).columns]
              footer := (p.close).footer + 1 } := by
      apply product_close_char
      rw [h1]
      rfl
    rw [h2, h1]
    refine ⟨rfl, rfl⟩

/-- Witness for C7 (amended) on a fresh Product of capacity 3. -/
theorem product_close_unconditional_flush_witness :
    ((Product.new [] 3).close).written
      = (if (Product.new [] 3).writerOpen then (Product.new [] 3).written else [])
        ++ [(Product.new [] 3).columns]
    ∧ (((Product.new [] 3).close).close).footer = (Product.new [] 3).footer + 2 :=
  ⟨(product_close_unconditional_flush.1 (Product.new [] 3) (by decide)).1,
   (product_close_unconditional_flush.2 (Product.new [] 3) (by decide)).2⟩

/-- Counterexample to C7 as stated: with ZERO buffered rows, close is not a
no-op — it writes an empty batch into the file and a footer; and applying
close twice writes two batches and two footers, not at most one. -/
theorem product_close_noop_counterexample :
    ((Product.new [] 3).close).written = [Columns.empty]
    ∧ ((Product.new [] 3).close).footer = 1
    ∧ (((Product.new [] 3).close).close).written = [Columns.empty, Columns.empty]
    ∧ (((Product.new [] 3).close).close).footer = 2 := by
  refine ⟨by decide, by decide, by decide, by decide⟩

/-- Appending empty contents is neutral. -/
theorem contents_append_empty (a : Contents) : a.append Contents.empty = a := by
  cases a
  simp [Contents.append, Contents.empty]

/-- Prepending empty contents is neutral. -/
theorem contents_empty_append (a : Contents) : Contents.empty.append a = a := by
  cases a
  simp [Contents.append, Contents.empty]

/-- Columnwise concatenation is associative. -/
theorem contents_append_assoc (a b c : Contents) :
    (a.append b).append c = a.append (b.append c) := by
  cases a
  cases b
  cases c
  simp [Contents.append]

/-- File contents distribute over batch-list concatenation. -/
theorem writtenContents_append (l1 l2 : List Columns) :
    writtenContents (l1 ++ l2)
      = (writtenContents l1).append (writtenContents l2) := by
  induction l1 with
  | nil => simp [writtenContents, contents_empty_append]
  | cons c rest ih => simp [writtenContents, ih, contents_append_assoc]

/-- File contents of a single batch. -/
theorem writtenContents_single (c : Columns) :
    writtenContents [c] = c.contents := by
  simp [writtenContents, contents_append_empty]

/-- Row contents distribute over row-list concatenation. -/
theorem rowContents_append (l1 l2 : List (List Str)) :
    rowContents (l1 ++ l2) = (rowContents l1).append (rowContents l2) := by
  simp [rowContents, Contents.append, List.filterMap_append]

/-- Good rows of a cons cell. -/
theorem goodRows_cons (row : Str) (rest : List Str) :
    goodRows (row :: rest)
      = (if goodLine row then [normalized row] else []) ++ goodRows rest := by
  simp only [goodRows, List.filterMap_cons]
  cases goodLine row <;> simp

/-- A line is good exactly when it normalizes and its fields parse. -/
theorem goodLine_iff (row : Str) :
    goodLine row = true
      ↔ normalizeLine row = RowRes.ok (normalized row)
        ∧ fieldsParse (normalized row) = true := by
  unfold goodLine normalized
  cases hn : normalizeLine row <;> simp

/-- Columns::push succeeds exactly when all numeric fields parse. -/
theorem columns_push_none_iff (c : Columns) (r : List Str) :
    (Columns.push c r).2 = none ↔ fieldsParse r = true := by
  rcases e2 : parseUInt (2 ^ 64) (r.getD 1 []) with _ | v2
  · rw [columns_push_fail_1 c r e2]
    simp only [fieldsParse]; rw [e2]; simp
  rcases e3 : parseUInt (2 ^ 32) (r.getD 2 []) with _ | v3
  · rw [columns_push_fail_2 c r v2 e2 e3]
    simp only [fieldsParse]; rw [e3]; simp
  rcases e4 : parseUInt (2 ^ 32) (r.getD 3 []) with _ | v4
  · rw [columns_push_fail_3 c r v2 v3 e2 e3 e4]
    simp only [fieldsParse]; rw [e4]; simp
  rcases e7 : parseUInt (2 ^ 32) (r.getD 6 []) with _ | v7
  · rw [columns_push_fail_6 c r v2 v3 v4 e2 e3 e4 e7]
    simp only [fieldsParse]; rw [e7]; simp
  rcases e8 : parseF32Ok (r.getD 7 []) with _ | _
  · rw [columns_push_fail_7 c r v2 v3 v4 v7 e2 e3 e4 e7 e8]
    simp only [fieldsParse]; rw [e8]; simp
  rcases e11 : parseUInt (2 ^ 32) (r.getD 10 []) with _ | v11
  · rw [columns_push_fail_10 c r v2 v3 v4 v7 e2 e3 e4 e7 e8 e11]
    simp only [fieldsParse]; rw [e11]; simp
  rcases e12 : parseF32Ok (r.getD 11 []) with _ | _
  · rw [columns_push_fail_11 c r v2 v3 v4 v7 v11 e2 e3 e4 e7 e8 e11 e12]
    simp only [fieldsParse]; rw [e12]; simp
  rw [columns_push_ok c r v2 v3 v4 v7 v11 e2 e3 e4 e7 e8 e11 e12]
  simp only [fieldsParse]
  rw [e2, e3, e4, e7, e8, e11, e12]
  simp

/-- A fully parseable row extends every buffer by its own contribution. -/
theorem columns_push_good (c : Columns) (r : List Str)
    (hf : fieldsParse r = true) :
    (Columns.push c r).2 = none
    ∧ (Columns.push c r).1.contents = c.contents.append (rowContents [r])
    ∧ (Columns.push c r).1.heights = c.heights.map (· + 1)
    ∧ (Columns.push c r).1.len = c.len + 1 := by
  simp only [fieldsParse, Bool.and_eq_true, Option.isSome_iff_exists] at hf
  obtain ⟨⟨⟨⟨⟨⟨⟨v2, e2⟩, ⟨v3, e3⟩⟩, ⟨v4, e4⟩⟩, ⟨v7, e7⟩⟩, e8⟩, ⟨v11, e11⟩⟩, e12⟩ := hf
  rw [columns_push_ok c r v2 v3 v4 v7 v11 e2 e3 e4 e7 e8 e11 e12]
  refine ⟨rfl, ?_, ?_, rfl⟩
  · simp only [Columns.contents, Contents.append, rowContents,
      Categorical.push, List.map_cons, List.map_nil, List.filterMap_cons,
      List.filterMap_nil, e2, e3, e4, e7, e8, e11, e12]
    simp
  · simp [Columns.heights, Categorical.push]

/-- The empty accumulator has empty contents. -/
theorem columns_empty_contents : Columns.empty.contents = Contents.empty := rfl

/-- A successful flush preserves the invariant and moves no data in or
out of the product as a whole. -/
theorem product_write_spec (p : Product) (hInv : ProdInv p) :
    (p.write).2 = none
    ∧ ProdInv (p.write).1
    ∧ fileContents (p.write).1 = fileContents p
    ∧ (p.write).1.columns = Columns.empty
    ∧ (p.write).1.capacity = p.capacity
    ∧ (p.write).1.writerOpen = true := by
  rw [product_write_ok p (dfNew_of_heights _ hInv.1)]
  refine ⟨rfl, ⟨rfl, by simp⟩, ?_, rfl, rfl, rfl⟩
  cases hO : p.writerOpen
  · simp [fileContents, hInv.2 hO, writtenContents, columns_empty_contents,
      contents_append_empty, contents_empty_append]
  · simp [fileContents, writtenContents_append, writtenContents_single,
      columns_empty_contents, contents_append_assoc, contents_append_empty]

/-- Unfolding of Product::push once the flush stage is settled. -/
theorem product_push_unfold (p p1 : Product) (row : Str)
    (h1 : (if p.capacity ≤ p.columns.len then p.write else (p, none))
      = (p1, none)) :
    p.push row
      = (match normalizeLine row with
         | .panic => (p1, PushRes.panic)
         | .err _ => (p1, PushRes.ok)
         | .ok fields =>
           match Columns.push p1.columns fields with
           | (cols, none) => ({ p1 with columns := cols }, PushRes.ok)
           | (cols, some e) => ({ p1 with columns := cols }, PushRes.err e)) := by
  simp only [Product.push, h1]

/-- One successful push preserves the invariant and adds exactly the
line's contribution (nothing for a dropped line) to the product. -/
theorem product_push_ok_spec (p : Product) (row : Str) (hInv : ProdInv p)
    (hok : (p.push row).2 = PushRes.ok) :
    ProdInv (p.push row).1
    ∧ fileContents (p.push row).1
        = (fileContents p).append (rowContents (goodRows [row])) := by
  obtain ⟨p1, h1, hInv1, hfc1⟩ :
      ∃ p1, (if p.capacity ≤ p.columns.len then p.write else (p, none))
          = (p1, none)
        ∧ ProdInv p1 ∧ fileContents p1 = fileContents p := by
    by_cases hc : p.capacity ≤ p.columns.len
    · obtain ⟨hw2, hwInv, hwfc, -, -, -⟩ := product_write_spec p hInv
      refine ⟨(p.write).1, ?_, hwInv, hwfc⟩
      rw [if_pos hc]
      exact Prod.ext rfl hw2
    · exact ⟨p, by rw [if_neg hc], hInv, rfl⟩
  cases hn : normalizeLine row with
  | panic =>
    have hpush : p.push row = (p1, PushRes.panic) := by
      rw [product_push_unfold p p1 row h1]
      simp only [hn]
    rw [hpush] at hok
    simp at hok
  | err e =>
    have hpush : p.push row = (p1, PushRes.ok) := by
      rw [product_push_unfold p p1 row h1]
      simp only [hn]
    have hg : goodLine row = false := by
      simp [goodLine, hn]
    rw [hpush]
    refine ⟨hInv1, ?_⟩
    simp only [goodRows_cons, hg, Bool.false_eq_true, if_false]
    have hnil : goodRows ([] : List Str) = [] := rfl
    rw [hnil]
    simp only [List.nil_append]
    have : rowContents ([] : List (List Str)) = Contents.empty := rfl
    rw [this, contents_append_empty, hfc1]
  | ok fields =>
    rcases hp : Columns.push p1.columns fields with ⟨cols, r⟩
    cases r with
    | some e =>
      have hpush : p.push row = ({ p1 with columns := cols }, PushRes.err e) := by
        rw [product_push_unfold p p1 row h1]
        simp only [hn, hp]
      rw [hpush] at hok
      simp at hok
    | none =>
      have hpush : p.push row = ({ p1 with columns := cols }, PushRes.ok) := by
        rw [product_push_unfold p p1 row h1]
        simp only [hn, hp]
      have hf : fieldsParse fields = true :=
        (columns_push_none_iff p1.columns fields).mp (by rw [hp])
      obtain ⟨-, hcont, hh, hlen⟩ := columns_push_good p1.columns fields hf
      rw [hp] at hcont hh hlen
      simp only at hcont hh hlen
      have hnorm : normalized row = fields := by simp [normalized, hn]
      have hg : goodLine row = true := by
        rw [goodLine_iff, hnorm]
        exact ⟨hn, hf⟩
      rw [hpush]
      constructor
      · refine ⟨?_, fun hO => hInv1.2 hO⟩
        simp only
        rw [hh, hInv1.1, hlen]
        simp [List.map_replicate]
      · simp only [goodRows_cons, hg, if_pos, hnorm]
        have hnil : goodRows ([] : List Str) = [] := rfl
        rw [hnil]
        simp only [List.append_nil]
        simp only [fileContents]
        rw [hcont, ← contents_append_assoc]
        exact congrArg (fun x => x.append (rowContents [fields])) hfc1

/-- A wholly successful run of pushes preserves the invariant and adds
exactly the good rows' contributions, in order. -/
theorem pushAll_spec :
    ∀ (rows : List Str) (p : Product), ProdInv p →
      (p.pushAll rows).2 = PushRes.ok →
      ProdInv (p.pushAll rows).1
      ∧ fileContents (p.pushAll rows).1
          = (fileContents p).append (rowContents (goodRows rows)) := by
  intro rows
  induction rows with
  | nil =>
    intro p hInv _
    refine ⟨hInv, ?_⟩
    have h1 : goodRows ([] : List Str) = [] := rfl
    have h2 : rowContents ([] : List (List Str)) = Contents.empty := rfl
    simp [Product.pushAll, h1, h2, contents_append_empty]
  | cons row rest ih =>
    intro p hInv hok
    rcases hq : p.push row with ⟨p1, r⟩
    have hred : p.pushAll (row :: rest)
        = (match (p1, r) with
           | (p1, PushRes.ok) => p1.pushAll rest
           | (p1, r) => (p1, r)) := by
      simp only [Product.pushAll, hq]
    cases r with
    | ok =>
      simp only at hred
      rw [hred] at hok ⊢
      obtain ⟨hInv1, hfc1⟩ := product_push_ok_spec p row hInv (by rw [hq])
      rw [hq] at hInv1 hfc1
      simp only at hInv1 hfc1
      obtain ⟨hInv2, hfc2⟩ := ih p1 hInv1 hok
      refine ⟨hInv2, ?_⟩
      have hone : goodRows [row]
          = if goodLine row then [normalized row] else [] := by
        rw [goodRows_cons]
        simp [goodRows]
      have hsplit : goodRows (row :: rest) = goodRows [row] ++ goodRows rest := by
        rw [goodRows_cons, hone]
      rw [hfc2, hfc1, contents_append_assoc, ← rowContents_append, ← hsplit]
    | err e =>
      simp only at hred
      rw [hred] at hok
      simp at hok
    | panic =>
      simp only at hred
      rw [hred] at hok
      simp at hok

/-- A good line pushed under capacity does not flush: it only extends the
accumulator. -/
theorem product_push_good_no_flush (p : Product) (row : Str)
    (hlen : p.columns.len < p.capacity) (hg : goodLine row = true) :
    p.push row
      = ({ p with columns := (Columns.push p.columns (normalized row)).1 },
         PushRes.ok) := by
  obtain ⟨hn, hf⟩ := (goodLine_iff row).mp hg
  have h2 : (Columns.push p.columns (normalized row)).2 = none :=
    (columns_push_none_iff _ _).mpr hf
  rcases hp : Columns.push p.columns (normalized row) with ⟨cols, r⟩
  rw [hp] at h2
  simp only at h2
  subst h2
  have h1 : (if p.capacity ≤ p.columns.len then p.write else (p, none))
      = (p, none) := by
    rw [if_neg (by omega)]
  rw [product_push_unfold p p row h1]
  simp only [hn, hp]

/-- Pushing good lines while the accumulator stays under capacity never
writes a batch: the rows only accumulate. -/
theorem pushAll_no_flush :
    ∀ (rows : List Str) (p : Product), ProdInv p →
      (∀ r ∈ rows, goodLine r = true) →
      p.columns.len + rows.length ≤ p.capacity →
      (p.pushAll rows).2 = PushRes.ok
      ∧ (p.pushAll rows).1.written = p.written
      ∧ (p.pushAll rows).1.writerOpen = p.writerOpen
      ∧ (p.pushAll rows).1.columns.len = p.columns.len + rows.length
      ∧ (p.pushAll rows).1.capacity = p.capacity
      ∧ ProdInv (p.pushAll rows).1 := by
  intro rows
  induction rows with
  | nil =>
    intro p hInv _ _
    exact ⟨rfl, rfl, rfl, by simp [Product.pushAll], rfl, hInv⟩
  | cons row rest ih =>
    intro p hInv hgood hcap
    have hg := hgood row (by simp)
    have hlen : p.columns.len < p.capacity := by
      simp only [List.length_cons] at hcap
      omega
    have hpush := product_push_good_no_flush p row hlen hg
    have hf : fieldsParse (normalized row) = true := ((goodLine_iff row).mp hg).2
    obtain ⟨-, -, hh, hlen1⟩ := columns_push_good p.columns (normalized row) hf
    have hred : p.pushAll (row :: rest)
        = Product.pushAll
            { p with columns := (Columns.push p.columns (normalized row)).1 }
            rest := by
      simp only [Product.pushAll, hpush]
    have hInv1 : ProdInv
        { p with columns := (Columns.push p.columns (normalized row)).1 } := by
      refine ⟨?_, fun hO => hInv.2 hO⟩
      show (Columns.push p.columns (normalized row)).1.heights = _
      rw [hh, hInv.1]
      show _ = List.replicate 15 (Columns.push p.columns (normalized row)).1.len
      rw [hlen1]
      simp [List.map_replicate]
    have hcap1 :
        ({ p with columns := (Columns.push p.columns (normalized row)).1 }
          : Product).columns.len + rest.length
        ≤ ({ p with columns := (Columns.push p.columns (normalized row)).1 }
          : Product).capacity := by
      show (Columns.push p.columns (normalized row)).1.len + _ ≤ p.capacity
      rw [hlen1]
      simp only [List.length_cons] at hcap
      omega
    obtain ⟨c1, c2, c3, c4, c5, c6⟩ :=
      ih _ hInv1 (fun r hr => hgood r (by simp [hr])) hcap1
    rw [hred]
    refine ⟨c1, c2, c3, ?_, c5, c6⟩
    rw [c4]
    show (Columns.push p.columns (normalized row)).1.len + _ = _
    rw [hlen1]
    simp only [List.length_cons]
    omega

/-- C6: for a fresh Symbol Writer of capacity c fed good lines, the first
c pushes buffer without any flush; the (c+1)-th push performs exactly one
intermediate flush — whose batch holds exactly the first c rows — BEFORE
the new row is buffered (the new row ends up alone in the accumulator);
and after close the file contains, columnwise and in order, exactly the
successfully-parsed rows that were pushed, each once (no loss, no
duplication). -/
theorem product_capacity_flush_roundtrip :
    (∀ (path : Str) (cap : Nat) (rows : List Str),
        (∀ r ∈ rows, goodLine r = true) → rows.length ≤ cap →
        ((Product.new path cap).pushAll rows).2 = PushRes.ok
        ∧ ((Product.new path cap).pushAll rows).1.written = []
        ∧ ((Product.new path cap).pushAll rows).1.columns.len = rows.length)
    ∧ (∀ (path : Str) (cap : Nat) (rows : List Str) (row : Str),
        (∀ r ∈ rows, goodLine r = true) → rows.length = cap →
        goodLine row = true →
        ((((Product.new path cap).pushAll rows).1).push row).2 = PushRes.ok
        ∧ ((((Product.new path cap).pushAll rows).1).push row).1.written
          = [((Product.new path cap).pushAll rows).1.columns]
        ∧ ((((Product.new path cap).pushAll rows).1).push row).1.columns.len
          = 1)
    ∧ (∀ (path : Str) (cap : Nat) (rows : List Str),
        ((Product.new path cap).pushAll rows).2 = PushRes.ok →
        writtenContents ((((Product.new path cap).pushAll rows).1).close).written
          = rowContents (goodRows rows)) := by
  have hInv0 : ∀ (path : Str) (cap : Nat), ProdInv (Product.new path cap) :=
    fun _ _ => ⟨rfl, fun _ => rfl⟩
  refine ⟨?_, ?_, ?_⟩
  · intro path cap rows hgood hle
    obtain ⟨c1, c2, c3, c4, c5, c6⟩ :=
      pushAll_no_flush rows (Product.new path cap) (hInv0 path cap) hgood
        (by show 0 + rows.length ≤ cap; omega)
    refine ⟨c1, c2, ?_⟩
    rw [c4]
    show 0 + rows.length = rows.length
    omega
  · intro path cap rows row hgood hrows hgrow
    obtain ⟨c1, c2, c3, c4, c5, c6⟩ :=
      pushAll_no_flush rows (Product.new path cap) (hInv0 path cap) hgood
        (by rw [hrows]; show 0 + cap ≤ cap; omega)
    have c3' : (((Product.new path cap).pushAll rows).1).writerOpen = false := by
      rw [c3]
      rfl
    have c4' : (((Product.new path cap).pushAll rows).1).columns.len = cap := by
      rw [c4, hrows]
      show 0 + cap = cap
      omega
    have c5' : (((Product.new path cap).pushAll rows).1).capacity = cap := by
      rw [c5]
      rfl
    have hwo := product_write_ok (((Product.new path cap).pushAll rows).1)
      (dfNew_of_heights _ c6.1)
    rw [c3'] at hwo
    simp only [Bool.false_eq_true, if_false, List.nil_append] at hwo
    have hcaple : (((Product.new path cap).pushAll rows).1).capacity
        ≤ (((Product.new path cap).pushAll rows).1).columns.len := by
      rw [c5', c4']
    have h1 : (if (((Product.new path cap).pushAll rows).1).capacity
          ≤ (((Product.new path cap).pushAll rows).1).columns.len
        then (((Product.new path cap).pushAll rows).1).write
        else ((((Product.new path cap).pushAll rows).1), none))
        = (((((Product.new path cap).pushAll rows).1).write).1, none) := by
      rw [if_pos hcaple, hwo]
    obtain ⟨hn, hf⟩ := (goodLine_iff row).mp hgrow
    rcases hp : Columns.push Columns.empty (normalized row) with ⟨cols, r⟩
    have h2 : r = none := by
      have := (columns_push_none_iff Columns.empty (normalized row)).mpr hf
      rw [hp] at this
      exact this
    subst h2
    obtain ⟨-, -, -, hlen1⟩ := columns_push_good Columns.empty (normalized row) hf
    rw [hp] at hlen1
    simp only at hlen1
    have hpush : (((Product.new path cap).pushAll rows).1).push row
        = ({ ((Product.new path cap).pushAll rows).1 with
              columns := cols
              writerOpen := true
              written := [(((Product.new path cap).pushAll rows).1).columns] },
           PushRes.ok) := by
      rw [product_push_unfold _ _ row h1, hwo]
      simp only [hn, hp]
    rw [hpush]
    exact ⟨rfl, rfl, hlen1⟩
  · intro path cap rows hok
    obtain ⟨hInv, hfc⟩ :=
      pushAll_spec rows (Product.new path cap) (hInv0 path cap) hok
    have hcl := product_close_char (((Product.new path cap).pushAll rows).1)
      hInv.1
    rw [hcl]
    simp only
    rw [writtenContents_append, writtenContents_single]
    have hif : (if (((Product.new path cap).pushAll rows).1).writerOpen = true
          then (((Product.new path cap).pushAll rows).1).written else [])
        = (((Product.new path cap).pushAll rows).1).written := by
      cases hO : (((Product.new path cap).pushAll rows).1).writerOpen
      · simp [hInv.2 hO]
      · simp
    rw [hif]
    have hres : fileContents (((Product.new path cap).pushAll rows).1)
        = rowContents (goodRows rows) := by
      rw [hfc]
      have hempty : fileContents (Product.new path cap) = Contents.empty := rfl
      rw [hempty, contents_empty_append]
    exact hres

/-- Witness for C6 with capacity 2: two good quote lines buffer with no
flush; a third good (trade) line triggers exactly one flush of the first
two rows before being buffered; closing writes exactly the parsed rows. -/
theorem product_capacity_flush_roundtrip_witness :
    ((Product.new [] 2).pushAll
        ["F@ 1 2 3 a b 4 5.5 c d 6 7.5 e f g".toList,
         "F@ 9 8 7 a b 6 5.5 c d 4 3.5 e f g".toList]).1.written = []
    ∧ ((((Product.new [] 2).pushAll
        ["F@ 1 2 3 a b 4 5.5 c d 6 7.5 e f g".toList,
         "F@ 9 8 7 a b 6 5.5 c d 4 3.5 e f g".toList]).1).push
          "FT 1 2 3 a b c 4 5.5 d 10 11 12".toList).1.written
      = [((Product.new [] 2).pushAll
          ["F@ 1 2 3 a b 4 5.5 c d 6 7.5 e f g".toList,
           "F@ 9 8 7 a b 6 5.5 c d 4 3.5 e f g".toList]).1.columns]
    ∧ writtenContents ((((Product.new [] 2).pushAll
        ["F@ 1 2 3 a b 4 5.5 c d 6 7.5 e f g".toList,
         "F@ 9 8 7 a b 6 5.5 c d 4 3.5 e f g".toList]).1).close).written
      = rowContents (goodRows
          ["F@ 1 2 3 a b 4 5.5 c d 6 7.5 e f g".toList,
           "F@ 9 8 7 a b 6 5.5 c d 4 3.5 e f g".toList]) :=
  ⟨(product_capacity_flush_roundtrip.1 [] 2
      ["F@ 1 2 3 a b 4 5.5 c d 6 7.5 e f g".toList,
       "F@ 9 8 7 a b 6 5.5 c d 4 3.5 e f g".toList]
      (by decide) (by decide)).2.1,
   (product_capacity_flush_roundtrip.2.1 [] 2
      ["F@ 1 2 3 a b 4 5.5 c d 6 7.5 e f g".toList,
       "F@ 9 8 7 a b 6 5.5 c d 4 3.5 e f g".toList]
      "FT 1 2 3 a b c 4 5.5 d 10 11 12".toList
      (by decide) (by decide) (by decide)).2.1,
   product_capacity_flush_roundtrip.2.2 [] 2
      ["F@ 1 2 3 a b 4 5.5 c d 6 7.5 e f g".toList,
       "F@ 9 8 7 a b 6 5.5 c d 4 3.5 e f g".toList]
      (by decide)⟩

/-- C10: par_download installs its worker budget as the process-wide
global rayon pool, so every call leaves the pool built, and any call made
with the pool already built returns the pool error having started none of
its jobs, regardless of the arguments. -/
theorem par_download_global_pool :
    (∀ (st : GlobalPool) (args : List DLArgs) (f : DLArgs → Option Err),
        (par_download st args f).1.built = true)
    ∧ (∀ (st : GlobalPool) (args : List DLArgs) (g : DLArgs → Option Err),
        st.built = true →
        par_download st args g = (st, [], some ParErr.pool)) := by
  constructor
  · intro st args f
    rcases st with ⟨b⟩
    cases b <;> simp [par_download, buildGlobal]
  · intro st args g h
    rcases st with ⟨b⟩
    simp only at h
    subst h
    simp [par_download, buildGlobal]

/-- Witness for C10: a first call on the fresh process state followed by a
second call; the second returns the pool error with no jobs started. -/
theorem par_download_global_pool_witness :
    par_download
        (par_download GlobalPool.init [⟨[], [], 1, []⟩]
          (fun _ => none)).1
        [⟨[], [], 2, []⟩] (fun _ => none)
      = ((par_download GlobalPool.init [⟨[], [], 1, []⟩]
          (fun _ => none)).1, [], some ParErr.pool) :=
  par_download_global_pool.2
    (par_download GlobalPool.init [⟨[], [], 1, []⟩] (fun _ => none)).1
    [⟨[], [], 2, []⟩] (fun _ => none)
    (par_download_global_pool.1 GlobalPool.init [⟨[], [], 1, []⟩]
      (fun _ => none))
